import Mathlib

/-!
Verification of the Ctopia live container-dashboard core.

This file gives a shallow embedding of the program's core functions —
the auth middleware, the settings defaults, the stats calculations, the
batch stats aggregation, the compose-stack reconciliation, the rate
limiter and the state broadcaster — and proves the specified properties
about them.  Machine integers (uint64 counters, byte counts) are modelled
as `Nat`/`Int`; the float arithmetic of the CPU percentage is modelled
over `ℚ` with Go's `math.Round` (round half away from zero) made explicit;
Go string slicing `s[:12]`, which panics when the string is shorter, is
modelled as an `Option`-returning operation; Go map reads are modelled as
association-list lookups with the zero value as default.
-/

/-! ## Authorization middleware (`authMiddleware`, api package) -/

/-- The two permission levels of the two-tier model (`authLevel` in the
source): `public` for unauthenticated callers in authless mode, `admin`
for callers presenting a valid session token. -/
inductive AuthLevel
  | public
  | admin
deriving DecidableEq, Repr

/-- Outcome of the auth middleware for one inbound request: either the
request is rejected with 401, or it proceeds with a permission level
stored in the request context. -/
inductive AuthOutcome
  | unauthorized
  | allowed (level : AuthLevel)
deriving DecidableEq, Repr

/-- Shallow embedding of `authMiddleware`.  `authEnabled` is
`cfg.Auth.Enabled`, `authlessMode` is the runtime settings toggle, and
`validToken` abstracts `token != "" && s.auth.ValidateToken(token) == nil`
(token validation itself is an external collaborator). -/
def authMiddleware (authEnabled authlessMode validToken : Bool) : AuthOutcome :=
  let authRequired := authEnabled && !authlessMode
  if authRequired then
    if !validToken then AuthOutcome.unauthorized
    else AuthOutcome.allowed AuthLevel.admin
  else
    AuthOutcome.allowed (if validToken then AuthLevel.admin else AuthLevel.public)

/-! ## Settings and feature sets (`internal/settings`) -/

/-- Per-container action switches (`ContainerFeatures`). -/
structure ContainerFeatures where
  view : Bool
  start : Bool
  stop : Bool
  restart : Bool
  delete : Bool
deriving DecidableEq, Repr

/-- Per-stack action switches (`ComposeFeatures`). -/
structure ComposeFeatures where
  view : Bool
  start : Bool
  stop : Bool
  restart : Bool
deriving DecidableEq, Repr

/-- Per-image action switches (`ImageFeatures`). -/
structure ImageFeatures where
  view : Bool
  delete : Bool
  prune : Bool
  pull : Bool
deriving DecidableEq, Repr

/-- The fixed-shape permission matrix (`FeatureSet`). -/
structure FeatureSet where
  containers : ContainerFeatures
  composes : ComposeFeatures
  images : ImageFeatures
deriving DecidableEq, Repr

/-- The persisted runtime settings (`Settings`). -/
structure Settings where
  authlessMode : Bool
  removeVolumesOnStop : Bool
  adminFeatures : FeatureSet
  publicFeatures : FeatureSet
deriving DecidableEq, Repr

/-- Embedding of `isZeroFeatureSet`: true when every switch is false. -/
def isZeroFeatureSet (f : FeatureSet) : Bool :=
  !f.containers.view && !f.containers.start && !f.containers.stop &&
  !f.containers.restart && !f.containers.delete &&
  !f.composes.view && !f.composes.start && !f.composes.stop && !f.composes.restart &&
  !f.images.view && !f.images.delete && !f.images.prune && !f.images.pull

/-- The built-in default admin profile (every switch on), as written in
`applyDefaults`. -/
def defaultAdminFeatures : FeatureSet :=
  { containers := { view := true, start := true, stop := true, restart := true, delete := true }
    composes := { view := true, start := true, stop := true, restart := true }
    images := { view := true, delete := true, prune := true, pull := true } }

/-- The built-in default public profile (container view and compose view
only), as written in `applyDefaults`.  Unmentioned fields are the Go
zero value `false`. -/
def defaultPublicFeatures : FeatureSet :=
  { containers := { view := true, start := false, stop := false, restart := false, delete := false }
    composes := { view := true, start := false, stop := false, restart := false }
    images := { view := false, delete := false, prune := false, pull := false } }

/-- Embedding of `applyDefaults`: each profile whose value is the
all-false zero set is replaced by its built-in default. -/
def applyDefaults (st : Settings) : Settings :=
  let st1 :=
    if isZeroFeatureSet st.adminFeatures then
      { st with adminFeatures := defaultAdminFeatures }
    else st
  if isZeroFeatureSet st1.publicFeatures then
    { st1 with publicFeatures := defaultPublicFeatures }
  else st1

/-- The Go zero value of `Settings`, produced when no settings file
exists yet. -/
def zeroSettings : Settings :=
  { authlessMode := false
    removeVolumesOnStop := false
    adminFeatures :=
      { containers := { view := false, start := false, stop := false, restart := false, delete := false }
        composes := { view := false, start := false, stop := false, restart := false }
        images := { view := false, delete := false, prune := false, pull := false } }
    publicFeatures :=
      { containers := { view := false, start := false, stop := false, restart := false, delete := false }
        composes := { view := false, start := false, stop := false, restart := false }
        images := { view := false, delete := false, prune := false, pull := false } } }

/-- Embedding of the settings `load` path: the persisted settings (or the
zero value when the file is absent) are passed through `applyDefaults`.
File I/O and JSON decoding are external; `persisted` is the decoded
value. -/
def loadSettings (persisted : Option Settings) : Settings :=
  applyDefaults (persisted.getD zeroSettings)

/-! ## Memory calculation (`calcMemory`, docker package) -/

/-- The memory part of an engine stats sample (`MemoryStats`): the
`Stats` string-keyed counter map, the usage and the limit, all uint64. -/
structure MemoryStats where
  stats : List (String × Nat)
  usage : Nat
  limit : Nat
deriving DecidableEq, Repr

/-- Embedding of `calcMemory`.  `stats.MemoryStats.Stats["cache"]` is a
Go map read that yields 0 when the key is absent; `used` starts at the
zero value 0 and is assigned `Usage - cache` only under the guard
`Usage > cache`. -/
def calcMemory (m : MemoryStats) : Nat × Nat :=
  let cache := (m.stats.lookup "cache").getD 0
  (if m.usage > cache then m.usage - cache else 0, m.limit)

/-! ## CPU percentage (`calcCPUPercent`, docker package) -/

/-- The CPU-relevant fields of an engine stats sample, flattening
`CPUStats`/`PreCPUStats`: total usage and system usage for the current
and previous sample, the online-CPU count and the length of the per-CPU
usage list. -/
structure CPUSample where
  cpuTotalUsage : Nat
  preCpuTotalUsage : Nat
  systemUsage : Nat
  preSystemUsage : Nat
  onlineCPUs : Nat
  percpuUsageLen : Nat
deriving DecidableEq, Repr

/-- Go's `math.Round`: round half away from zero, here on `ℚ`. -/
def goRound (q : ℚ) : ℤ :=
  if 0 ≤ q then ⌊q + 1/2⌋ else -⌊-q + 1/2⌋

/-- `math.Round(v*100)/100`: round to two decimal places. -/
def round2 (q : ℚ) : ℚ :=
  (goRound (q * 100) : ℚ) / 100

/-- `float64(CPUStats.CPUUsage.TotalUsage) - float64(PreCPUStats.CPUUsage.TotalUsage)`. -/
def cpuDelta (s : CPUSample) : ℚ :=
  (s.cpuTotalUsage : ℚ) - (s.preCpuTotalUsage : ℚ)

/-- `float64(CPUStats.SystemUsage) - float64(PreCPUStats.SystemUsage)`. -/
def sysDelta (s : CPUSample) : ℚ :=
  (s.systemUsage : ℚ) - (s.preSystemUsage : ℚ)

/-- The CPU multiplier: `OnlineCPUs`, falling back to
`len(PercpuUsage)` when that field is zero. -/
def numCPU (s : CPUSample) : ℚ :=
  if s.onlineCPUs = 0 then (s.percpuUsageLen : ℚ) else (s.onlineCPUs : ℚ)

/-- Embedding of `calcCPUPercent`: in the positive-deltas branch,
`(cpuDelta / sysDelta) * numCPU * 100.0` rounded to two decimals,
otherwise 0. -/
def calcCPUPercent (s : CPUSample) : ℚ :=
  if 0 < sysDelta s ∧ 0 < cpuDelta s then
    round2 (cpuDelta s / sysDelta s * numCPU s * 100)
  else 0

/-! ## Theorems: authorization (C1) -/

/-- C1: for every inbound request, the effective permission level is
admin (privileged) whenever a valid session token is presented —
irrespective of authless mode — else public when authentication is not
required (auth disabled in config or authless mode on), else the request
is rejected as unauthenticated. -/
theorem authMiddleware_effective_level (authEnabled authlessMode validToken : Bool) :
    authMiddleware authEnabled authlessMode validToken =
      (if validToken then AuthOutcome.allowed AuthLevel.admin
       else if !authEnabled || authlessMode then AuthOutcome.allowed AuthLevel.public
       else AuthOutcome.unauthorized) := by
  cases authEnabled <;> cases authlessMode <;> cases validToken <;> rfl

/-! ## Theorems: settings defaults (C9) -/

/-- C9: on settings load, a feature-set profile whose persisted value has
every switch false is silently replaced by the built-in defaults (all
switches true for admin; exactly `containers.view` and `composes.view`
true for public), while a profile with any switch set is kept verbatim —
so an administrator who disables every public feature and restarts the
process gets public view access re-enabled. -/
theorem loadSettings_zero_profile_replaced (st : Settings) :
    (isZeroFeatureSet st.adminFeatures = true →
        (loadSettings (some st)).adminFeatures = defaultAdminFeatures) ∧
    (isZeroFeatureSet st.publicFeatures = true →
        (loadSettings (some st)).publicFeatures = defaultPublicFeatures ∧
        (loadSettings (some st)).publicFeatures.containers.view = true ∧
        (loadSettings (some st)).publicFeatures.composes.view = true) ∧
    (isZeroFeatureSet st.adminFeatures = false →
        (loadSettings (some st)).adminFeatures = st.adminFeatures) ∧
    (isZeroFeatureSet st.publicFeatures = false →
        (loadSettings (some st)).publicFeatures = st.publicFeatures) := by
  simp only [loadSettings, applyDefaults, Option.getD_some]
  constructor
  · intro h
    simp [h]
    split <;> rfl
  constructor
  · intro h
    constructor
    · split <;> simp [h, defaultPublicFeatures]
    · split <;> simp [h, defaultPublicFeatures]
  constructor
  · intro h
    simp [h]
    split <;> rfl
  · intro h
    split <;> simp [h]

/-- C9 witness: with every switch of both profiles persisted false, the
loaded public profile has container view re-enabled. -/
theorem loadSettings_zero_profile_replaced_witness :
    (loadSettings (some zeroSettings)).publicFeatures.containers.view = true :=
  ((loadSettings_zero_profile_replaced zeroSettings).2.1 (by decide)).2.1

/-! ## Theorems: memory calculation (C3) -/

/-- C3 counterexample: with usage 5 and a cache figure of 10 (larger than
usage) the code reports used = 0, not the raw usage 5 the claim
requires. -/
theorem calcMemory_cache_exceeds_usage_cex :
    (calcMemory { stats := [("cache", 10)], usage := 5, limit := 100 }).1 = 0 ∧
    ¬ (calcMemory { stats := [("cache", 10)], usage := 5, limit := 100 }).1 = 5 := by
  constructor <;> decide

/-- C3 amended: reported memory used equals usage minus the page-cache
figure when that figure is available and not larger than usage, and is 0
(not raw usage) when the cache figure is larger than usage; when the
cache figure is unavailable the Go map read yields 0, so used equals raw
usage; the memory limit is reported verbatim. -/
theorem calcMemory_spec (m : MemoryStats) :
    (calcMemory m).2 = m.limit ∧
    (∀ c, m.stats.lookup "cache" = some c → c ≤ m.usage →
        (calcMemory m).1 = m.usage - c) ∧
    (∀ c, m.stats.lookup "cache" = some c → m.usage < c →
        (calcMemory m).1 = 0) ∧
    (m.stats.lookup "cache" = none → (calcMemory m).1 = m.usage) := by
  refine ⟨rfl, ?_, ?_, ?_⟩
  · intro c hc hle
    simp only [calcMemory, hc, Option.getD_some]
    rcases lt_or_eq_of_le hle with h | h
    · simp [h]
    · simp [h]
  · intro c hc hlt
    have hng : ¬ m.usage > c := by omega
    simp [calcMemory, hc, hng]
  · intro hc
    simp [calcMemory, hc]
    omega

/-- C3 witness: usage 5 with cache 2 reports used 3 and the limit 7
verbatim. -/
theorem calcMemory_spec_witness :
    (calcMemory { stats := [("cache", 2)], usage := 5, limit := 7 }).1 = 3 ∧
    (calcMemory { stats := [("cache", 2)], usage := 5, limit := 7 }).2 = 7 := by
  have h := calcMemory_spec { stats := [("cache", 2)], usage := 5, limit := 7 }
  exact ⟨h.2.1 2 (by decide) (by decide), h.1⟩

/-! ## Theorems: CPU percentage (C5) -/

/-- C5: the computed CPU percentage equals
`(cpuDelta / sysDelta) * numCPU * 100` rounded to two decimal places when
both deltas are positive, is exactly 0 whenever the system delta or the
CPU delta is non-positive, and is never negative. -/
theorem calcCPUPercent_spec (s : CPUSample) :
    (0 < sysDelta s → 0 < cpuDelta s →
        calcCPUPercent s = round2 (cpuDelta s / sysDelta s * numCPU s * 100)) ∧
    (sysDelta s ≤ 0 ∨ cpuDelta s ≤ 0 → calcCPUPercent s = 0) ∧
    0 ≤ calcCPUPercent s := by
  refine ⟨?_, ?_, ?_⟩
  · intro hs hc
    simp [calcCPUPercent, hs, hc]
  · intro h
    have : ¬ (0 < sysDelta s ∧ 0 < cpuDelta s) := by
      rcases h with h | h <;> intro ⟨h1, h2⟩ <;> linarith
    simp [calcCPUPercent, this]
  · unfold calcCPUPercent
    split
    · rename_i h
      have hq : 0 ≤ cpuDelta s / sysDelta s * numCPU s * 100 := by
        have hd : 0 ≤ cpuDelta s / sysDelta s := le_of_lt (div_pos h.2 h.1)
        have hn : 0 ≤ numCPU s := by
          unfold numCPU
          split <;> positivity
        positivity
      have h100 : (0 : ℚ) ≤ cpuDelta s / sysDelta s * numCPU s * 100 * 100 := by positivity
      unfold round2 goRound
      rw [if_pos h100]
      have : (0 : ℤ) ≤ ⌊cpuDelta s / sysDelta s * numCPU s * 100 * 100 + 1/2⌋ := by
        apply Int.floor_nonneg.mpr
        linarith
      positivity
    · exact le_refl 0

/-- A concrete stats sample: CPU delta 2, system delta 4, 2 online CPUs. -/
def cpuSampleBusy : CPUSample :=
  { cpuTotalUsage := 4, preCpuTotalUsage := 2, systemUsage := 10,
    preSystemUsage := 6, onlineCPUs := 2, percpuUsageLen := 0 }

/-- A concrete stats sample with a zero system delta. -/
def cpuSampleIdle : CPUSample :=
  { cpuTotalUsage := 4, preCpuTotalUsage := 2, systemUsage := 6,
    preSystemUsage := 6, onlineCPUs := 2, percpuUsageLen := 0 }

/-- C5 witness: with usage deltas 2 and 4 over 2 online CPUs the
percentage is 100, and with a zero system delta it is 0. -/
theorem calcCPUPercent_spec_witness :
    calcCPUPercent cpuSampleBusy = 100 ∧ calcCPUPercent cpuSampleIdle = 0 := by
  constructor
  · have h := (calcCPUPercent_spec cpuSampleBusy).1
      (by norm_num [sysDelta, cpuSampleBusy]) (by norm_num [cpuDelta, cpuSampleBusy])
    rw [h]
    norm_num [cpuDelta, sysDelta, numCPU, round2, goRound, cpuSampleBusy]
  · exact (calcCPUPercent_spec cpuSampleIdle).2.1
      (Or.inl (by norm_num [sysDelta, cpuSampleIdle]))

/-! ## Stack reconciliation (`buildStack` and helpers, docker package) -/

/-- A port entry of an engine container summary (`types.Port`). -/
structure SummaryPort where
  ip : String
  publicPort : Nat
  privatePort : Nat
  protocol : String
deriving DecidableEq, Repr

/-- An engine container summary (`container.Summary`), restricted to the
fields the program reads. -/
structure ContainerSummary where
  id : String
  names : List String
  image : String
  status : String
  state : String
  created : Int
  labels : List (String × String)
  ports : List SummaryPort
deriving DecidableEq, Repr

/-- Go map read `c.Labels[key]`: the empty string when absent. -/
def lookupLabel (labels : List (String × String)) (key : String) : String :=
  (labels.lookup key).getD ""

/-- The engine label carrying the compose service name. -/
def composeServiceLabel : String := "com.docker.compose.service"

/-- The engine label carrying the compose project name. -/
def composeProjectLabel : String := "com.docker.compose.project"

/-- A parsed compose declaration file (`composeFile`): optional explicit
project name and the declared service names (the keys of the `services`
map). -/
structure ComposeFile where
  name : String
  services : List String
deriving DecidableEq, Repr

/-- A configured stack declaration (`config.ComposeConfig`). -/
structure ComposeConfig where
  name : String
  path : String
deriving DecidableEq, Repr

/-- `filepath.Base` for slash-separated paths: the last non-empty path
component, "/" for an all-slash path, "." for the empty path. -/
def baseName (path : String) : String :=
  if path = "" then "."
  else
    match ((path.splitOn "/").filter (fun c => c ≠ "")).getLast? with
    | some c => c
    | none => "/"

/-- Embedding of `resolveProjectName`: the declaration file's explicit
name field when present and non-empty, else the last path component.
The parsed file (or `none` when no candidate file parses, as in
`readComposeFile`) is passed in: file reading is external. -/
def resolveProjectName (cf : Option ComposeFile) (path : String) : String :=
  match cf with
  | some f => if f.name ≠ "" then f.name else baseName path
  | none => baseName path

/-- Embedding of `parseServiceNames`: the declared service names, or the
nil list when no declaration file parses. -/
def parseServiceNames (cf : Option ComposeFile) : List String :=
  match cf with
  | some f => f.services
  | none => []

/-- The `containerByService` map of `buildStack`: among the project's
containers, for each non-empty service label the last container carrying
it wins (Go map writes overwrite in iteration order). -/
def containerByService (cs : List ContainerSummary) (svc : String) : Option ContainerSummary :=
  (cs.filter (fun c =>
    (lookupLabel c.labels composeServiceLabel == svc) && (svc != ""))).getLast?

/-- Go string slice `s[:12]`: defined only when the string has at least
12 characters, a panic (modelled as `none`) otherwise. -/
def goSlice12 (s : String) : Option String :=
  if 12 ≤ s.length then some (s.take 12) else none

/-- One service entry of a stack snapshot (`models.ComposeService`). -/
structure ComposeService where
  name : String
  containerID : String
  status : String
  state : String
  running : Bool
deriving DecidableEq, Repr

/-- A stack snapshot (`models.ComposeStack`). -/
structure ComposeStack where
  name : String
  path : String
  status : String
  services : List ComposeService
deriving DecidableEq, Repr

/-- One iteration of the service loop in `buildStack`: a declared
service with no live counterpart is "not created"/stopped; a bound one
carries the (sliced) container id, status, state and running flag. -/
def buildService (byService : String → Option ContainerSummary) (svcName : String) :
    Option ComposeService :=
  match byService svcName with
  | none => some { name := svcName, containerID := "", status := "not created",
                   state := "stopped", running := false }
  | some c =>
    (goSlice12 c.id).map fun sliced =>
      { name := svcName, containerID := sliced, status := c.status,
        state := c.state, running := c.state == "running" }

/-- The service loop of `buildStack` over the declared service names in
order; a panic on any element aborts the whole pass. -/
def buildServices (byService : String → Option ContainerSummary) :
    List String → Option (List ComposeService)
  | [] => some []
  | n :: ns =>
    match buildService byService n, buildServices byService ns with
    | some s, some rest => some (s :: rest)
    | _, _ => none

/-- The stack-status derivation at the end of `buildStack`: "stopped" by
default, "running" when the running count is positive and equals the
declared count, "partial" when it is positive but smaller. -/
def stackStatus (runningCount total : Nat) : String :=
  if 0 < runningCount ∧ runningCount = total then "running"
  else if 0 < runningCount then "partial"
  else "stopped"

/-- Embedding of `buildStack`.  `byProject` is the grouping of all live
containers by their compose project label, computed by the caller
`GetComposeStacks`; `cf` is the parsed declaration file shared by
`resolveProjectName` and `parseServiceNames`. -/
def buildStack (cc : ComposeConfig) (cf : Option ComposeFile)
    (byProject : String → List ContainerSummary) : Option ComposeStack :=
  let projectName := resolveProjectName cf cc.path
  let serviceNames := parseServiceNames cf
  let byService := containerByService (byProject projectName)
  (buildServices byService serviceNames).map fun services =>
    let runningCount := (services.filter (fun s => s.running)).length
    { name := cc.name, path := cc.path,
      status := stackStatus runningCount serviceNames.length, services := services }

/-! ### Helper lemmas about the service loop -/

/-- Every service entry produced by `buildService` carries the declared
service name. -/
theorem buildService_name (f : String → Option ContainerSummary) (n : String)
    (s : ComposeService) (h : buildService f n = some s) : s.name = n := by
  unfold buildService at h
  cases hf : f n with
  | none =>
    rw [hf] at h
    injection h with h
    rw [← h]
  | some c =>
    rw [hf] at h
    obtain ⟨sid, _, hs⟩ := Option.map_eq_some'.mp h
    rw [← hs]

/-- A declared service with no live counterpart yields the fixed
"not created" entry. -/
theorem buildService_unbound (f : String → Option ContainerSummary) (n : String)
    (h : f n = none) :
    buildService f n = some { name := n, containerID := "", status := "not created",
                              state := "stopped", running := false } := by
  unfold buildService
  rw [h]

/-- A service entry marked running has a live counterpart. -/
theorem buildService_running_bound (f : String → Option ContainerSummary) (n : String)
    (s : ComposeService) (h : buildService f n = some s) (hr : s.running = true) :
    f n ≠ none := by
  intro hf
  rw [buildService_unbound f n hf] at h
  injection h with h
  rw [← h] at hr
  simp at hr

/-- Soundness of the service loop: the produced entries carry the
declared names in order, and each entry is the `buildService` image of
its own name. -/
theorem buildServices_sound (f : String → Option ContainerSummary) (ns : List String)
    (l : List ComposeService) (h : buildServices f ns = some l) :
    l.map (fun s => s.name) = ns ∧ ∀ s ∈ l, buildService f s.name = some s := by
  induction ns generalizing l with
  | nil =>
    unfold buildServices at h
    injection h with h
    rw [← h]
    simp
  | cons n ns ih =>
    unfold buildServices at h
    cases hb : buildService f n <;> rw [hb] at h
    · cases h
    case some s =>
      cases hr : buildServices f ns <;> rw [hr] at h
      · cases h
      case some rest =>
        injection h with h
        obtain ⟨ihmap, ihmem⟩ := ih rest hr
        have hname := buildService_name f n s hb
        subst h
        constructor
        · simp [hname, ihmap]
        · intro x hx
          rcases List.mem_cons.mp hx with hx | hx
          · subst hx
            rw [hname]
            exact hb
          · exact ihmem x hx

/-- Characterization of the stack-status derivation against the list of
produced service entries. -/
theorem stackStatus_iff (l : List ComposeService) :
    (stackStatus (l.filter (fun s => s.running)).length l.length = "running" ↔
      l ≠ [] ∧ ∀ s ∈ l, s.running = true) ∧
    (stackStatus (l.filter (fun s => s.running)).length l.length = "stopped" ↔
      ∀ s ∈ l, s.running = false) ∧
    (stackStatus (l.filter (fun s => s.running)).length l.length = "partial" ↔
      ((∃ s ∈ l, s.running = true) ∧ ∃ s ∈ l, s.running = false)) := by
  have hcnt : (l.filter (fun s => s.running)).length = l.countP (fun s => s.running) :=
    (List.countP_eq_length_filter _ _).symm
  rw [hcnt]
  have hall : l.countP (fun s => s.running) = l.length ↔ ∀ s ∈ l, s.running = true :=
    List.countP_eq_length
  have hzero : l.countP (fun s => s.running) = 0 ↔ ∀ s ∈ l, s.running = false := by
    rw [List.countP_eq_zero]
    simp
  have hpos : 0 < l.countP (fun s => s.running) ↔ ∃ s ∈ l, s.running = true :=
    List.countP_pos_iff
  unfold stackStatus
  split
  · rename_i hc
    refine ⟨iff_of_true rfl ?_, iff_of_false (by decide) ?_, iff_of_false (by decide) ?_⟩
    · refine ⟨?_, hall.mp hc.2⟩
      intro hnil
      rw [hnil] at hc
      simp at hc
    · intro hstop
      obtain ⟨s, hs, hr⟩ := hpos.mp hc.1
      rw [hstop s hs] at hr
      cases hr
    · rintro ⟨_, s, hs, hf⟩
      rw [hall.mp hc.2 s hs] at hf
      cases hf
  · split
    · rename_i hc hp
      refine ⟨iff_of_false (by decide) ?_, iff_of_false (by decide) ?_, iff_of_true rfl ?_⟩
      · rintro ⟨_, hallr⟩
        exact hc ⟨hp, hall.mpr hallr⟩
      · intro hstop
        obtain ⟨s, hs, hr⟩ := hpos.mp hp
        rw [hstop s hs] at hr
        cases hr
      · refine ⟨hpos.mp hp, ?_⟩
        by_contra hno
        push_neg at hno
        refine hc ⟨hp, hall.mpr ?_⟩
        intro s hs
        have := hno s hs
        simp at this
        exact this
    · rename_i hc hp
      have h0 : l.countP (fun s => s.running) = 0 := Nat.eq_zero_of_not_pos hp
      refine ⟨iff_of_false (by decide) ?_, iff_of_true rfl (hzero.mp h0), iff_of_false (by decide) ?_⟩
      · rintro ⟨hnil, hallr⟩
        have := hall.mpr hallr
        rw [h0] at this
        exact hnil (List.length_eq_zero.mp this.symm)
      · rintro ⟨⟨s, hs, hr⟩, _⟩
        rw [hzero.mp h0 s hs] at hr
        cases hr

/-! ## Theorems: stack status (C2) -/

/-- A declared stack with zero services, as configured. -/
def emptyStackConfig : ComposeConfig := { name := "empty", path := "/stacks/empty" }

/-- The snapshot the code produces for a zero-service stack. -/
def emptyStackSnapshot : ComposeStack :=
  { name := "empty", path := "/stacks/empty", status := "stopped", services := [] }

/-- C2 counterexample: for a declared stack with zero services and no
live containers, every declared service is (vacuously) bound and
running, yet the computed status is "stopped", not "running" — the
claimed "running iff every declared service is bound and running" fails
at the zero-service boundary case. -/
theorem buildStack_running_vacuous_cex :
    buildStack emptyStackConfig (some { name := "empty", services := [] }) (fun _ => []) =
      some emptyStackSnapshot ∧
    emptyStackSnapshot.services.all (fun s => s.running) = true ∧
    emptyStackSnapshot.status ≠ "running" := by
  refine ⟨rfl, rfl, by decide⟩

/-- C2 amended: the computed stack status is "running" iff the stack
declares at least one service and every declared service is bound and
running, "stopped" iff no declared service is running, and "partial"
iff some declared service is running and some is not; moreover a service
counted as running is always bound to a live resource. -/
theorem buildStack_status_spec (cc : ComposeConfig) (cf : Option ComposeFile)
    (byProject : String → List ContainerSummary) (st : ComposeStack)
    (h : buildStack cc cf byProject = some st) :
    (st.status = "running" ↔ st.services ≠ [] ∧ ∀ s ∈ st.services, s.running = true) ∧
    (st.status = "stopped" ↔ ∀ s ∈ st.services, s.running = false) ∧
    (st.status = "partial" ↔
      ((∃ s ∈ st.services, s.running = true) ∧ ∃ s ∈ st.services, s.running = false)) ∧
    (∀ s ∈ st.services, s.running = true →
      containerByService (byProject (resolveProjectName cf cc.path)) s.name ≠ none) := by
  simp only [buildStack] at h
  obtain ⟨l, hl, hst⟩ := Option.map_eq_some'.mp h
  obtain ⟨hnames, hmem⟩ :=
    buildServices_sound (containerByService (byProject (resolveProjectName cf cc.path)))
      (parseServiceNames cf) l hl
  have hlen : (parseServiceNames cf).length = l.length := by
    rw [← hnames, List.length_map]
  subst hst
  simp only
  rw [hlen]
  refine ⟨(stackStatus_iff l).1, (stackStatus_iff l).2.1, (stackStatus_iff l).2.2, ?_⟩
  intro s hs hr
  exact buildService_running_bound _ s.name s (hmem s hs) hr

/-- The declared one-service "web" stack used as concrete input. -/
def webStackConfig : ComposeConfig := { name := "web", path := "/stacks/web" }

/-- The parsed declaration file of the "web" stack. -/
def webComposeFile : ComposeFile := { name := "web", services := ["app"] }

/-- A live engine container bound to service "app" of project "web". -/
def webAppContainer : ContainerSummary :=
  { id := "aaaaaaaaaaaa4444", names := ["/web-app-1"], image := "app:latest",
    status := "Up 5 minutes", state := "running", created := 100,
    labels := [("com.docker.compose.project", "web"), ("com.docker.compose.service", "app")],
    ports := [] }

/-- The live containers of the engine, grouped by project label. -/
def webByProject : String → List ContainerSummary :=
  fun p => if p = "web" then [webAppContainer] else []

/-- The snapshot the code produces for the "web" stack. -/
def webStackSnapshot : ComposeStack :=
  { name := "web", path := "/stacks/web", status := "running",
    services := [{ name := "app", containerID := "aaaaaaaaaaaa", status := "Up 5 minutes",
                   state := "running", running := true }] }

/-- C2 witness: the amended characterization instantiated at a concrete
one-service stack whose only service is bound and running. -/
theorem buildStack_status_spec_witness :
    webStackSnapshot.status = "running" ↔ webStackSnapshot.services ≠ [] ∧
      ∀ s ∈ webStackSnapshot.services, s.running = true :=
  (buildStack_status_spec webStackConfig (some webComposeFile) webByProject
    webStackSnapshot (by decide)).1

/-! ## Theorems: snapshot service count (C7) -/

/-- C7: for every declared stack and every possible set of live engine
containers, the produced snapshot has exactly one service entry per
service declared in the stack's declaration file (in declaration order,
matched by name), and each declared service lacking a live counterpart
is still present, marked "not created" with state "stopped" and not
running. -/
theorem buildStack_service_count_spec (cc : ComposeConfig) (cf : Option ComposeFile)
    (byProject : String → List ContainerSummary) (st : ComposeStack)
    (h : buildStack cc cf byProject = some st) :
    st.services.length = (parseServiceNames cf).length ∧
    st.services.map (fun s => s.name) = parseServiceNames cf ∧
    ∀ s ∈ st.services,
      containerByService (byProject (resolveProjectName cf cc.path)) s.name = none →
      s.status = "not created" ∧ s.state = "stopped" ∧ s.running = false := by
  simp only [buildStack] at h
  obtain ⟨l, hl, hst⟩ := Option.map_eq_some'.mp h
  obtain ⟨hnames, hmem⟩ :=
    buildServices_sound (containerByService (byProject (resolveProjectName cf cc.path)))
      (parseServiceNames cf) l hl
  subst hst
  simp only
  refine ⟨by rw [← hnames, List.length_map], hnames, ?_⟩
  intro s hs hnone
  have hb := hmem s hs
  rw [buildService_unbound _ s.name hnone] at hb
  injection hb with hb
  rw [← hb]
  exact ⟨rfl, rfl, rfl⟩

/-- The declared two-service "shop" stack used as concrete input. -/
def shopStackConfig : ComposeConfig := { name := "shop", path := "/stacks/shop" }

/-- The parsed declaration file of the "shop" stack: two declared
services. -/
def shopComposeFile : ComposeFile := { name := "shop", services := ["app", "db"] }

/-- A live engine container bound to service "app" of project "shop";
service "db" has no live counterpart. -/
def shopAppContainer : ContainerSummary :=
  { id := "bbbbbbbbbbbb5555", names := ["/shop-app-1"], image := "shop:latest",
    status := "Up 2 minutes", state := "running", created := 200,
    labels := [("com.docker.compose.project", "shop"), ("com.docker.compose.service", "app")],
    ports := [] }

/-- The live containers of the engine for the "shop" scenario, grouped
by project label. -/
def shopByProject : String → List ContainerSummary :=
  fun p => if p = "shop" then [shopAppContainer] else []

/-- The snapshot the code produces for the "shop" stack: both declared
services appear, "db" marked "not created". -/
def shopStackSnapshot : ComposeStack :=
  { name := "shop", path := "/stacks/shop", status := "partial",
    services := [{ name := "app", containerID := "bbbbbbbbbbbb", status := "Up 2 minutes",
                   state := "running", running := true },
                 { name := "db", containerID := "", status := "not created",
                   state := "stopped", running := false }] }

/-- C7 witness: the two-service "shop" stack with one live container
still yields two service entries. -/
theorem buildStack_service_count_spec_witness :
    shopStackSnapshot.services.length = (parseServiceNames (some shopComposeFile)).length :=
  (buildStack_service_count_spec shopStackConfig (some shopComposeFile) shopByProject
    shopStackSnapshot (by decide)).1

/-! ## Batch stats aggregation (`GetContainers` / `fetchStats`, docker package) -/

/-- A published port of a container snapshot (`models.Port`). -/
structure Port where
  ip : String
  host : Int
  container : Int
  protocol : String
deriving DecidableEq, Repr

/-- A container snapshot (`models.Container`), as produced by
`GetContainers`. -/
structure Container where
  id : String
  fullId : String
  name : String
  image : String
  status : String
  state : String
  cpu : ℚ
  memory : Nat
  memoryLimit : Nat
  ports : List Port
  created : Int
  compose : String
deriving DecidableEq, Repr

/-- A full engine stats sample (`container.StatsResponse`), restricted
to the fields the program reads. -/
structure StatsResponse where
  cpuStats : CPUSample
  memoryStats : MemoryStats
deriving DecidableEq, Repr

/-- The possible outcomes of one engine stats call for one identifier:
transport error, unreadable body, unparseable JSON, or a parsed
sample. -/
inductive StatsFetch
  | respError
  | bodyError
  | parseError
  | ok (resp : StatsResponse)
deriving DecidableEq, Repr

/-- Whether a per-identifier stats fetch failed at some stage. -/
def statsFailed (f : StatsFetch) : Bool :=
  match f with
  | .ok _ => false
  | _ => true

/-- Embedding of `fetchStats`: the named zero results on any per-stage
failure, else the calculated CPU percentage and memory figures. -/
def fetchStats (f : StatsFetch) : ℚ × Nat × Nat :=
  match f with
  | .ok resp => (calcCPUPercent resp.cpuStats,
                 (calcMemory resp.memoryStats).1, (calcMemory resp.memoryStats).2)
  | _ => (0, 0, 0)

/-- One per-identifier stats record (`containerStats`). -/
structure containerStats where
  id : String
  cpu : ℚ
  mem : Nat
  memLim : Nat
deriving DecidableEq, Repr

/-- The per-container goroutine body of `GetContainers`: a zero record
without consulting the engine when the container is not running, else
the `fetchStats` result.  `engine` maps an identifier to the outcome of
its stats call. -/
def sampleStats (engine : String → StatsFetch) (c : ContainerSummary) : containerStats :=
  if c.state == "running" then
    let r := fetchStats (engine c.id)
    { id := c.id, cpu := r.1, mem := r.2.1, memLim := r.2.2 }
  else
    { id := c.id, cpu := 0, mem := 0, memLim := 0 }

/-- The `statsMap` of `GetContainers`, keyed by container id, with the
Go zero value on a missing key. -/
def statsMap (engine : String → StatsFetch) (list : List ContainerSummary) (id : String) :
    containerStats :=
  ((list.map (fun c => (c.id, sampleStats engine c))).lookup id).getD
    { id := "", cpu := 0, mem := 0, memLim := 0 }

/-- The display name: first engine-reported name without its leading
slash, "unknown" when the engine reports none. -/
def containerName (c : ContainerSummary) : String :=
  match c.names with
  | [] => "unknown"
  | n :: _ => if n.take 1 = "/" then n.drop 1 else n

/-- The port conversion in the result loop of `GetContainers`. -/
def convertPorts (ps : List SummaryPort) : List Port :=
  ps.map fun p =>
    { ip := p.ip, host := (p.publicPort : Int), container := (p.privatePort : Int),
      protocol := p.protocol }

/-- One iteration of the result loop of `GetContainers`: the summary
fields plus the stats looked up by id, with the panicking `c.ID[:12]`
slice modelled as `Option`. -/
def buildContainer (engine : String → StatsFetch) (list : List ContainerSummary)
    (c : ContainerSummary) : Option Container :=
  let s := statsMap engine list c.id
  (goSlice12 c.id).map fun sliced =>
    { id := sliced, fullId := c.id, name := containerName c, image := c.image,
      status := c.status, state := c.state, cpu := s.cpu, memory := s.mem,
      memoryLimit := s.memLim, ports := convertPorts c.ports, created := c.created,
      compose := lookupLabel c.labels composeProjectLabel }

/-- The result loop of `GetContainers` over the listed containers in
order; a panic on any element aborts the whole call. -/
def buildContainerList (engine : String → StatsFetch) (list : List ContainerSummary) :
    List ContainerSummary → Option (List Container)
  | [] => some []
  | c :: cs =>
    match buildContainer engine list c, buildContainerList engine list cs with
    | some x, some xs => some (x :: xs)
    | _, _ => none

/-- Embedding of `GetContainers`: one result entry per listed container.
The engine listing itself is external; `list` is its result. -/
def GetContainers (engine : String → StatsFetch) (list : List ContainerSummary) :
    Option (List Container) :=
  buildContainerList engine list list

/-! ### Helper lemmas about the aggregation pass -/

/-- With distinct listed ids, the stats map resolves each listed
container to its own goroutine's record. -/
theorem statsMap_eq_sample (engine : String → StatsFetch) (list : List ContainerSummary)
    (hnd : (list.map (fun c => c.id)).Nodup) :
    ∀ c ∈ list, statsMap engine list c.id = sampleStats engine c := by
  induction list with
  | nil => intro c hc; cases hc
  | cons d ds ih =>
    simp only [List.map_cons, List.nodup_cons] at hnd
    intro c hc
    rcases List.mem_cons.mp hc with hc | hc
    · subst hc
      simp [statsMap]
    · have hne : c.id ≠ d.id := by
        intro he
        exact hnd.1 (he ▸ List.mem_map_of_mem (fun c => c.id) hc)
      have hbeq : (c.id == d.id) = false := beq_eq_false_iff_ne.mpr hne
      have : ((d :: ds).map (fun c => (c.id, sampleStats engine c))).lookup c.id =
          ((ds).map (fun c => (c.id, sampleStats engine c))).lookup c.id := by
        simp [List.lookup_cons, hbeq]
      unfold statsMap
      rw [this]
      exact ih hnd.2 c hc

/-- Soundness of the result loop: one result per listed container, in
order, each the `buildContainer` image of its summary. -/
theorem buildContainerList_sound (engine : String → StatsFetch) (list : List ContainerSummary)
    (cs : List ContainerSummary) (res : List Container)
    (h : buildContainerList engine list cs = some res) :
    res.length = cs.length ∧
    res.map (fun r => r.fullId) = cs.map (fun c => c.id) ∧
    ∀ p ∈ cs.zip res, buildContainer engine list p.1 = some p.2 := by
  induction cs generalizing res with
  | nil =>
    unfold buildContainerList at h
    injection h with h
    rw [← h]
    simp
  | cons c cs ih =>
    unfold buildContainerList at h
    cases hb : buildContainer engine list c <;> rw [hb] at h
    · cases h
    case some x =>
      cases hr : buildContainerList engine list cs <;> rw [hr] at h
      · cases h
      case some xs =>
        injection h with h
        obtain ⟨ihlen, ihmap, ihmem⟩ := ih xs hr
        have hfull : x.fullId = c.id := by
          obtain ⟨sliced, _, hx⟩ := Option.map_eq_some'.mp hb
          rw [← hx]
        subst h
        refine ⟨by simp [ihlen], by simp [hfull, ihmap], ?_⟩
        intro p hp
        rw [List.zip_cons_cons] at hp
        rcases List.mem_cons.mp hp with hp | hp
        · subst hp
          exact hb
        · exact ihmem p hp

/-! ## Theorems: batch aggregation (C6) -/

/-- C6: for every batch of N listed containers with distinct ids, the
aggregation pass produces exactly N result entries, one per identifier
in order; a non-running container's entry carries a zero CPU/memory
sample, and the goroutine result for a non-running container is
independent of the engine (no stats call is consulted); a running
container's entry carries exactly its own identifier's `fetchStats`
result, and any per-identifier stats failure (transport error,
unreadable body, or unparseable response) makes that result the zero
sample — the batch is never aborted or shrunk. -/
theorem getContainers_batch_spec (engine : String → StatsFetch)
    (list : List ContainerSummary) (res : List Container)
    (hnd : (list.map (fun c => c.id)).Nodup)
    (h : GetContainers engine list = some res) :
    res.length = list.length ∧
    res.map (fun r => r.fullId) = list.map (fun c => c.id) ∧
    (∀ p ∈ list.zip res,
      (¬ p.1.state = "running" →
        p.2.cpu = 0 ∧ p.2.memory = 0 ∧ p.2.memoryLimit = 0) ∧
      (p.1.state = "running" →
        (p.2.cpu, p.2.memory, p.2.memoryLimit) = fetchStats (engine p.1.id))) ∧
    (∀ f, statsFailed f = true → fetchStats f = (0, 0, 0)) ∧
    (∀ (e1 e2 : String → StatsFetch) (c : ContainerSummary),
      ¬ c.state = "running" → sampleStats e1 c = sampleStats e2 c) := by
  obtain ⟨hlen, hmap, hmem⟩ := buildContainerList_sound engine list list res h
  refine ⟨hlen, hmap, ?_, ?_, ?_⟩
  · intro p hp
    have hin : p.1 ∈ list := (List.of_mem_zip hp).1
    have hb := hmem p hp
    obtain ⟨sliced, _, hx⟩ := Option.map_eq_some'.mp hb
    have hsm := statsMap_eq_sample engine list hnd p.1 hin
    constructor
    · intro hns
      have : sampleStats engine p.1 =
          { id := p.1.id, cpu := 0, mem := 0, memLim := 0 } := by
        simp [sampleStats, hns]
      rw [← hx]
      simp [hsm, this]
    · intro hr
      have : sampleStats engine p.1 =
          { id := p.1.id, cpu := (fetchStats (engine p.1.id)).1,
            mem := (fetchStats (engine p.1.id)).2.1,
            memLim := (fetchStats (engine p.1.id)).2.2 } := by
        simp [sampleStats, hr]
      rw [← hx]
      simp [hsm, this]
  · intro f hf
    cases f <;> simp_all [fetchStats, statsFailed]
  · intro e1 e2 c hns
    simp [sampleStats, hns]

/-- A running listed container whose stats call fails at the transport
stage. -/
def failContainer : ContainerSummary :=
  { id := "cccccccccccc1111", names := ["/job-a"], image := "img", status := "Up 1 minute",
    state := "running", created := 1, labels := [], ports := [] }

/-- A listed container that is not running. -/
def idleContainer : ContainerSummary :=
  { id := "dddddddddddd2222", names := [], image := "img2", status := "Exited (0)",
    state := "exited", created := 2, labels := [], ports := [] }

/-- An engine whose every stats call fails at the transport stage. -/
def failingEngine : String → StatsFetch := fun _ => StatsFetch.respError

/-- The result entries the code produces for the two-container batch
under the failing engine: both present, both zero samples. -/
def failBatchResult : List Container :=
  [{ id := "cccccccccccc", fullId := "cccccccccccc1111", name := "job-a", image := "img",
     status := "Up 1 minute", state := "running", cpu := 0, memory := 0, memoryLimit := 0,
     ports := [], created := 1, compose := "" },
   { id := "dddddddddddd", fullId := "dddddddddddd2222", name := "unknown", image := "img2",
     status := "Exited (0)", state := "exited", cpu := 0, memory := 0, memoryLimit := 0,
     ports := [], created := 2, compose := "" }]

/-- C6 witness: a batch of 2 containers (1 running with a failing stats
call, 1 not running) still yields exactly 2 entries. -/
theorem getContainers_batch_spec_witness :
    failBatchResult.length = [failContainer, idleContainer].length :=
  (getContainers_batch_spec failingEngine [failContainer, idleContainer] failBatchResult
    (by decide) (by decide)).1

/-! ## Theorems: unguarded 12-character id slice (C10) -/

/-- The result loop succeeds when every listed id is long enough. -/
theorem buildContainerList_isSome (engine : String → StatsFetch)
    (list : List ContainerSummary) (cs : List ContainerSummary)
    (hgood : ∀ c ∈ cs, 12 ≤ c.id.length) :
    (buildContainerList engine list cs).isSome = true := by
  induction cs with
  | nil => rfl
  | cons c cs ih =>
    have hc : 12 ≤ c.id.length := hgood c (List.mem_cons_self c cs)
    have hb : buildContainer engine list c =
        some ((fun sliced =>
          { id := sliced, fullId := c.id, name := containerName c, image := c.image,
            status := c.status, state := c.state, cpu := (statsMap engine list c.id).cpu,
            memory := (statsMap engine list c.id).mem,
            memoryLimit := (statsMap engine list c.id).memLim,
            ports := convertPorts c.ports, created := c.created,
            compose := lookupLabel c.labels composeProjectLabel } : String → Container)
          (c.id.take 12)) := by
      simp [buildContainer, goSlice12, hc]
    have ht := ih (fun d hd => hgood d (List.mem_cons_of_mem c hd))
    obtain ⟨xs, hxs⟩ := Option.isSome_iff_exists.mp ht
    unfold buildContainerList
    rw [hb, hxs]
    rfl

/-- The result loop aborts when some listed id is too short. -/
theorem buildContainerList_none_of_short (engine : String → StatsFetch)
    (list : List ContainerSummary) (cs : List ContainerSummary) (c : ContainerSummary)
    (hin : c ∈ cs) (hshort : c.id.length < 12) :
    buildContainerList engine list cs = none := by
  induction cs with
  | nil => cases hin
  | cons d ds ih =>
    rcases List.mem_cons.mp hin with hd | hd
    · subst hd
      have hb : buildContainer engine list c = none := by
        simp [buildContainer, goSlice12, Nat.not_le.mpr hshort]
      unfold buildContainerList
      rw [hb]
    · have ht := ih hd
      unfold buildContainerList
      rw [ht]
      cases buildContainer engine list d <;> rfl

/-- The service loop succeeds when every bound container id is long
enough. -/
theorem buildServices_isSome (byService : String → Option ContainerSummary)
    (ns : List String)
    (hgood : ∀ n ∈ ns, ∀ c, byService n = some c → 12 ≤ c.id.length) :
    (buildServices byService ns).isSome = true := by
  induction ns with
  | nil => rfl
  | cons n ns ih =>
    have hs : (buildService byService n).isSome = true := by
      unfold buildService
      cases hb : byService n
      · rfl
      case some c =>
        have := hgood n (List.mem_cons_self n ns) c hb
        simp [goSlice12, this]
    have ht := ih (fun m hm => hgood m (List.mem_cons_of_mem n hm))
    obtain ⟨s, hsv⟩ := Option.isSome_iff_exists.mp hs
    obtain ⟨rest, hrest⟩ := Option.isSome_iff_exists.mp ht
    unfold buildServices
    rw [hsv, hrest]
    rfl

/-- C10: the container-list and stack-reconciliation paths slice every
bound engine-reported id with an unguarded `c.ID[:12]`; the slice is
defined exactly when the id has at least 12 characters, both paths
succeed whenever every (bound) listed id satisfies that precondition,
and the container-list path aborts (out-of-bounds) as soon as any listed
id is shorter. -/
theorem goSlice12_safety :
    (∀ s : String, (goSlice12 s).isSome = true ↔ 12 ≤ s.length) ∧
    (∀ (engine : String → StatsFetch) (list : List ContainerSummary),
      (∀ c ∈ list, 12 ≤ c.id.length) → (GetContainers engine list).isSome = true) ∧
    (∀ (engine : String → StatsFetch) (list : List ContainerSummary) (c : ContainerSummary),
      c ∈ list → c.id.length < 12 → GetContainers engine list = none) ∧
    (∀ (cc : ComposeConfig) (cf : Option ComposeFile)
        (byProject : String → List ContainerSummary),
      (∀ n ∈ parseServiceNames cf, ∀ c,
        containerByService (byProject (resolveProjectName cf cc.path)) n = some c →
        12 ≤ c.id.length) →
      (buildStack cc cf byProject).isSome = true) := by
  refine ⟨?_, ?_, ?_, ?_⟩
  · intro s
    unfold goSlice12
    split <;> simp_all
  · intro engine list hgood
    exact buildContainerList_isSome engine list list hgood
  · intro engine list c hin hshort
    exact buildContainerList_none_of_short engine list list c hin hshort
  · intro cc cf byProject hgood
    have := buildServices_isSome
      (containerByService (byProject (resolveProjectName cf cc.path)))
      (parseServiceNames cf) hgood
    obtain ⟨l, hl⟩ := Option.isSome_iff_exists.mp this
    simp [buildStack, hl]

/-- C10 witness: a 12-character id is sliceable, and a batch whose every
id has at least 12 characters goes through. -/
theorem goSlice12_safety_witness :
    (goSlice12 "abcdefghijkl").isSome = true ∧
    (GetContainers failingEngine [idleContainer]).isSome = true :=
  ⟨(goSlice12_safety.1 "abcdefghijkl").mpr (by decide),
   goSlice12_safety.2.1 failingEngine [idleContainer]
     (by intro c hc; rw [List.mem_singleton.mp hc]; decide)⟩

/-! ## Rate limiter (api package) -/

/-- `rateLimitMax`: the fixed admission ceiling. -/
def rateLimitMax : Nat := 5

/-- `rateLimitWindow`: the sliding window, in seconds. -/
def rateLimitWindow : Int := 60

/-- The rate limiter state (`rateLimiter`): per-origin timestamp
buckets.  Timestamps are instants in seconds; the mutex only serializes
access and has no sequential effect. -/
structure rateLimiter where
  buckets : List (String × List Int)
deriving DecidableEq, Repr

/-- The window slide: keep exactly the timestamps strictly after
`now - rateLimitWindow` (`t.After(cutoff)`). -/
def pruneTimes (now : Int) (times : List Int) : List Int :=
  times.filter (fun t => now - rateLimitWindow < t)

/-- Go map read `rl.buckets[ip]`: the nil slice when absent. -/
def getBucket (rl : rateLimiter) (ip : String) : List Int :=
  (rl.buckets.lookup ip).getD []

/-- Go map write `rl.buckets[ip] = v`. -/
def setBucket : List (String × List Int) → String → List Int → List (String × List Int)
  | [], ip, v => [(ip, v)]
  | (k, ts) :: rest, ip, v =>
    if k = ip then (k, v) :: rest else (k, ts) :: setBucket rest ip v

/-- Embedding of `allow`: slide the origin's window, reject (storing
only the pruned bucket) when the remaining count has reached the
ceiling, else admit and record the new timestamp. -/
def allow (rl : rateLimiter) (ip : String) (now : Int) : Bool × rateLimiter :=
  let valid := pruneTimes now (getBucket rl ip)
  if rateLimitMax ≤ valid.length then
    (false, { buckets := setBucket rl.buckets ip valid })
  else
    (true, { buckets := setBucket rl.buckets ip (valid ++ [now]) })

/-- Embedding of one `gc` tick at instant `now`: prune every bucket and
drop the origins whose pruned bucket is empty. -/
def gc (now : Int) (rl : rateLimiter) : rateLimiter :=
  { buckets := rl.buckets.filterMap fun kv =>
      let valid := pruneTimes now kv.2
      if valid = [] then none else some (kv.1, valid) }

/-- A sequence of admission checks for one origin at the given
instants, threading the limiter state. -/
def runAllow (rl : rateLimiter) (ip : String) : List Int → List Bool × rateLimiter
  | [] => ([], rl)
  | t :: ts =>
    let r := allow rl ip t
    let rest := runAllow r.2 ip ts
    (r.1 :: rest.1, rest.2)

/-! ### Helper lemmas about the rate limiter -/

/-- Pruning keeps a bucket whose every timestamp is inside the window. -/
theorem pruneTimes_keep (now : Int) (l : List Int)
    (h : ∀ t ∈ l, now - rateLimitWindow < t) : pruneTimes now l = l := by
  unfold pruneTimes
  rw [List.filter_eq_self]
  intro t ht
  simpa using h t ht

/-- An admission check on an empty limiter registers the origin. -/
theorem allow_empty (ip : String) (t : Int) :
    allow { buckets := [] } ip t = (true, { buckets := [(ip, [t])] }) := rfl

/-- An admission check on a single-origin limiter whose bucket survives
pruning, below the ceiling: admitted, timestamp appended. -/
theorem allow_single_admit (ip : String) (l : List Int) (now : Int)
    (hkeep : pruneTimes now l = l) (hlen : l.length < rateLimitMax) :
    allow { buckets := [(ip, l)] } ip now =
      (true, { buckets := [(ip, l ++ [now])] }) := by
  simp only [allow, getBucket, List.lookup_cons_self, Option.getD_some, hkeep]
  rw [if_neg (by omega)]
  simp [setBucket]

/-- An admission check on a single-origin limiter whose bucket survives
pruning, at the ceiling: rejected, bucket unchanged. -/
theorem allow_single_reject (ip : String) (l : List Int) (now : Int)
    (hkeep : pruneTimes now l = l) (hlen : rateLimitMax ≤ l.length) :
    allow { buckets := [(ip, l)] } ip now = (false, { buckets := [(ip, l)] }) := by
  simp only [allow, getBucket, List.lookup_cons_self, Option.getD_some, hkeep]
  rw [if_pos hlen]
  simp [setBucket]

/-- Reading back a bucket just written. -/
theorem getBucket_setBucket (bs : List (String × List Int)) (ip : String) (v : List Int) :
    getBucket { buckets := setBucket bs ip v } ip = v := by
  induction bs with
  | nil => simp [getBucket, setBucket]
  | cons kv rest ih =>
    obtain ⟨k, ts⟩ := kv
    by_cases hk : k = ip
    · subst hk
      simp [getBucket, setBucket]
    · have hbeq : (ip == k) = false := beq_eq_false_iff_ne.mpr (Ne.symm hk)
      simp only [setBucket, if_neg hk, getBucket, List.lookup_cons, hbeq]
      exact ih

/-- After a `gc` tick, an origin whose every recorded timestamp lies at
or before the cutoff is absent from the bucket map. -/
theorem gc_removes_stale (now : Int) (ip : String) (bs : List (String × List Int))
    (h : ∀ ts, (ip, ts) ∈ bs → ∀ t ∈ ts, t ≤ now - rateLimitWindow) :
    (gc now { buckets := bs }).buckets.lookup ip = none := by
  induction bs with
  | nil => rfl
  | cons kv rest ih =>
    obtain ⟨k, ts⟩ := kv
    have hrest := ih (fun ts2 hmem => h ts2 (List.mem_cons_of_mem _ hmem))
    simp only [gc, List.filterMap_cons] at hrest ⊢
    by_cases hk : k = ip
    · subst hk
      have hstale := h ts (List.mem_cons_self _ _)
      have hnil : pruneTimes now ts = [] := by
        unfold pruneTimes
        rw [List.filter_eq_nil_iff]
        intro t ht
        simpa using not_lt.mpr (hstale t ht)
      rw [hnil]
      simpa using hrest
    · cases hpr : pruneTimes now ts with
      | nil => simpa using hrest
      | cons t0 ts0 =>
        rw [if_neg (by simp)]
        have hbeq : (ip == k) = false := beq_eq_false_iff_ne.mpr (Ne.symm hk)
        simpa [List.lookup_cons, hbeq] using hrest

/-! ## Theorems: rate limiter (C4) -/

/-- C4: the ceiling is 5 and the window 60 seconds; for any single
origin, six requests all falling within one sliding window admit
exactly the first five and reject the sixth; a rejected request records
no timestamp (the bucket is exactly the pruned old bucket, so no quota
is consumed); and a gc tick removes any origin whose every recorded
timestamp has fallen out of the window. -/
theorem rateLimiter_spec :
    (rateLimitMax = 5 ∧ rateLimitWindow = 60) ∧
    (∀ (ip : String) (t1 t2 t3 t4 t5 t6 : Int),
      t1 ≤ t2 → t2 ≤ t3 → t3 ≤ t4 → t4 ≤ t5 → t5 ≤ t6 → t6 < t1 + rateLimitWindow →
      (runAllow { buckets := [] } ip [t1, t2, t3, t4, t5, t6]).1 =
        [true, true, true, true, true, false]) ∧
    (∀ (rl : rateLimiter) (ip : String) (now : Int),
      (allow rl ip now).1 = false →
      getBucket (allow rl ip now).2 ip = pruneTimes now (getBucket rl ip)) ∧
    (∀ (rl : rateLimiter) (ip : String) (now : Int),
      (∀ ts, (ip, ts) ∈ rl.buckets → ∀ t ∈ ts, t ≤ now - rateLimitWindow) →
      (gc now rl).buckets.lookup ip = none) := by
  refine ⟨⟨rfl, rfl⟩, ?_, ?_, ?_⟩
  · intro ip t1 t2 t3 t4 t5 t6 h12 h23 h34 h45 h56 hw
    have e1 := allow_empty ip t1
    have e2 := allow_single_admit ip [t1] t2
      (pruneTimes_keep _ _ (by intro t ht; simp at ht; subst ht; unfold rateLimitWindow at *; omega))
      (by simp [rateLimitMax])
    have e3 := allow_single_admit ip [t1, t2] t3
      (pruneTimes_keep _ _ (by intro t ht; simp at ht; rcases ht with h | h <;> subst h <;> unfold rateLimitWindow at * <;> omega))
      (by simp [rateLimitMax])
    have e4 := allow_single_admit ip [t1, t2, t3] t4
      (pruneTimes_keep _ _ (by intro t ht; simp at ht; rcases ht with h | h | h <;> subst h <;> unfold rateLimitWindow at * <;> omega))
      (by simp [rateLimitMax])
    have e5 := allow_single_admit ip [t1, t2, t3, t4] t5
      (pruneTimes_keep _ _ (by intro t ht; simp at ht; rcases ht with h | h | h | h <;> subst h <;> unfold rateLimitWindow at * <;> omega))
      (by simp [rateLimitMax])
    have e6 := allow_single_reject ip [t1, t2, t3, t4, t5] t6
      (pruneTimes_keep _ _ (by intro t ht; simp at ht; rcases ht with h | h | h | h | h <;> subst h <;> unfold rateLimitWindow at * <;> omega))
      (by simp [rateLimitMax])
    simp only [runAllow, e1, e2, e3, e4, e5, List.cons_append, List.nil_append] at *
    simp [runAllow, e6]
  · intro rl ip now h
    unfold allow at h ⊢
    by_cases hc : rateLimitMax ≤ (pruneTimes now (getBucket rl ip)).length
    · simp only [if_pos hc]
      exact getBucket_setBucket rl.buckets ip _
    · simp [if_neg hc] at h
  · intro rl ip now h
    exact gc_removes_stale now ip rl.buckets h

/-- C4 witness: six requests from one origin at seconds 0,10,…,50 —
five admitted, the sixth rejected. -/
theorem rateLimiter_spec_witness :
    (runAllow { buckets := [] } "10.0.0.1" [0, 10, 20, 30, 40, 50]).1 =
      [true, true, true, true, true, false] :=
  rateLimiter_spec.2.1 "10.0.0.1" 0 10 20 30 40 50 (by norm_num) (by norm_num)
    (by norm_num) (by norm_num) (by norm_num) (by norm_num [rateLimitWindow])

/-! ## State broadcaster (`pushState`, api package) -/

/-- The broadcast payload (`models.WSMessage`). -/
structure WSMessage where
  type : String
  containers : List Container
  composes : List ComposeStack
  timestamp : Int
deriving DecidableEq, Repr

/-- Embedding of the message construction in `pushState`: each
sub-fetch either succeeds with its list or fails, and a failed
sub-fetch is replaced by the empty list; the resulting "state" message
is what is offered to the hub's broadcast channel.  The engine calls
themselves are external; their outcomes are passed in. -/
def pushStateMsg (cres : Except Unit (List Container))
    (sres : Except Unit (List ComposeStack)) (ts : Int) : WSMessage :=
  { type := "state"
    containers := match cres with | .ok l => l | .error _ => []
    composes := match sres with | .ok l => l | .error _ => []
    timestamp := ts }

/-! ## Theorems: broadcast degradation (C8) -/

/-- C8: when either sub-fetch of the state recompute fails, the failing
half of the payload is replaced by the empty list while the surviving
half is kept, and a "state" message is still produced for the hub in
every combination of sub-fetch outcomes — a sub-fetch failure never
suppresses the broadcast. -/
theorem pushState_partial_degradation (cs : List Container) (ss : List ComposeStack)
    (ts : Int) :
    pushStateMsg (Except.error ()) (Except.ok ss) ts =
      { type := "state", containers := [], composes := ss, timestamp := ts } ∧
    pushStateMsg (Except.ok cs) (Except.error ()) ts =
      { type := "state", containers := cs, composes := [], timestamp := ts } ∧
    pushStateMsg (Except.error ()) (Except.error ()) ts =
      { type := "state", containers := [], composes := [], timestamp := ts } ∧
    ∀ (cres : Except Unit (List Container)) (sres : Except Unit (List ComposeStack)),
      (pushStateMsg cres sres ts).type = "state" ∧
      (pushStateMsg cres sres ts).timestamp = ts := by
  refine ⟨rfl, rfl, rfl, ?_⟩
  intro cres sres
  exact ⟨rfl, rfl⟩
